import Mathlib

/-!
Shallow embedding of `src/testdrive/asciidoc.py` (asciidoc generation from
JUnit XML inputs), together with theorems settling the specification claims.

Python-level semantics (exceptions, truthiness, `str()` conversion, JSON
decoding) are modelled explicitly; functions that can raise return
`Except PyExn`.
-/

set_option maxRecDepth 4000

/-- Python exceptions that the modelled code can raise or catch. -/
inductive PyExn where
  | typeError
  | keyError (msg : String)
  | valueError
  | attributeError
  | jsonDecodeError
  | invalidOperation
  deriving DecidableEq, Repr

/-- JSON values as decoded by `json.loads`.  Numbers are restricted to
integers, which covers every numeric literal the modelled code meets; object
keys are expected unique, as the JSON decoder produces. -/
inductive JVal where
  | null
  | bool (b : Bool)
  | num (n : Int)
  | str (s : String)
  | arr (xs : List JVal)
  | obj (kvs : List (String × JVal))

/-- Python truthiness of a JSON-decoded value. -/
def JVal.truthy : JVal → Bool
  | .null => false
  | .bool b => b
  | .num n => n != 0
  | .str s => s != ""
  | .arr xs => !xs.isEmpty
  | .obj kvs => !kvs.isEmpty

/-- Single-quote character, used by Python `repr` of strings. -/
def sQuote : String := String.singleton (Char.ofNat 39)

/-- Python `repr()` of a JSON-decoded value (no escaping inside strings,
which never occurs in the inputs considered here). -/
def pyRepr : JVal → String
  | .null => "None"
  | .bool true => "True"
  | .bool false => "False"
  | .num n => toString n
  | .str s => sQuote ++ s ++ sQuote
  | .arr xs =>
    "[" ++ ", ".intercalate (xs.attach.map (fun x => pyRepr x.1)) ++ "]"
  | .obj kvs =>
    "\x7b" ++
      ", ".intercalate (kvs.attach.map
        (fun kv => sQuote ++ kv.1.1 ++ sQuote ++ ": " ++ pyRepr kv.1.2)) ++ "\x7d"
decreasing_by
  all_goals simp_wf
  · have := List.sizeOf_lt_of_mem x.2
    omega
  · obtain ⟨⟨a, b⟩, hm⟩ := kv
    have := List.sizeOf_lt_of_mem hm
    simp at this ⊢
    omega

/-- Python `str()` of a JSON-decoded value. -/
def pyStr : JVal → String
  | .str s => s
  | v => pyRepr v

/-- JSON serialisation of a value, i.e. the text `json.loads` decoded.
String escaping is not modelled (no input here needs it). -/
def JVal.dump : JVal → String
  | .null => "null"
  | .bool true => "true"
  | .bool false => "false"
  | .num n => toString n
  | .str s => "\"" ++ s ++ "\""
  | .arr xs =>
    "[" ++ ", ".intercalate (xs.attach.map (fun x => JVal.dump x.1)) ++ "]"
  | .obj kvs =>
    "\x7b" ++
      ", ".intercalate (kvs.attach.map
        (fun kv => "\"" ++ kv.1.1 ++ "\": " ++ JVal.dump kv.1.2)) ++ "\x7d"
decreasing_by
  all_goals simp_wf
  · have := List.sizeOf_lt_of_mem x.2
    omega
  · obtain ⟨⟨a, b⟩, hm⟩ := kv
    have := List.sizeOf_lt_of_mem hm
    simp at this ⊢
    omega

/-- Text payloads fed to `json.loads`: either text that is not valid JSON,
or the serialisation of a JSON value. -/
inductive PyText where
  | raw (s : String)
  | jsonOf (v : JVal)

/-- The character content of a text payload. -/
def PyText.text : PyText → String
  | .raw s => s
  | .jsonOf v => v.dump

/-- Model of `json.loads` applied to an optional string: `None` raises
`TypeError`, undecodable text raises `json.JSONDecodeError`. -/
def loads : Option PyText → Except PyExn JVal
  | none => .error .typeError
  | some (.raw _) => .error .jsonDecodeError
  | some (.jsonOf v) => .ok v

/-- First value bound to `k` in an association list (Python dict lookup;
keys are unique in dicts produced by the JSON decoder). -/
def lookupFirst (kvs : List (String × JVal)) (k : String) : Option JVal :=
  (kvs.find? (fun p => p.1 = k)).map (·.2)

/-- Python dict insertion `d[k] = v`: overwrite in place, else append. -/
def dictInsert (l : List (String × JVal)) (k : String) (v : JVal) :
    List (String × JVal) :=
  if (l.find? (fun p => p.1 = k)).isSome then
    l.map (fun p => if p.1 = k then (k, v) else p)
  else l ++ [(k, v)]

/-- Python iteration `for item in v`: sequences yield their elements,
strings their characters, dicts their keys; other values raise `TypeError`. -/
def pyIter : JVal → Except PyExn (List JVal)
  | .arr xs => .ok xs
  | .str s => .ok (s.toList.map (fun ch => .str (String.singleton ch)))
  | .obj kvs => .ok (kvs.map (fun kv => .str kv.1))
  | _ => .error .typeError

/-- Python `str(x)` for an optional string (`str(None) = "None"`). -/
def optStr : Option String → String
  | none => "None"
  | some s => s

/-- Python `x or d` for an optional string `x` (both `None` and the empty
string are falsy). -/
def orStr (x : Option String) (d : String) : String :=
  match x with
  | none => d
  | some s => if s = "" then d else s

/-- Does `p` occur as a prefix of `s` (Python `s.startswith(p)`)? -/
def listPrefixOf : List Char → List Char → Bool
  | [], _ => true
  | _, [] => false
  | a :: as, b :: bs => a = b && listPrefixOf as bs

/-- Python `s.startswith(p)`. -/
def pyStartswith (s p : String) : Bool :=
  listPrefixOf p.toList s.toList

/-- Python `s.lstrip(cs)` for a set of characters. -/
def lstripChars (s : String) (cs : List Char) : String :=
  String.mk (s.toList.dropWhile (fun ch => cs.contains ch))

/-- Python `s.rstrip()`: drop trailing whitespace. -/
def rstripWs (s : String) : String :=
  String.mk (s.toList.reverse.dropWhile Char.isWhitespace).reverse

/-- The heading marker character of asciidoc titles. -/
def markCh : Char := '='

/-- A string of `k` heading marker characters. -/
def markersOf (k : Nat) : String := String.mk (List.replicate k markCh)

/-- Count of leading marker characters of a line (the inner loop of
`indent_titles`). -/
def leadingMarkers (l : String) : Nat :=
  (l.toList.takeWhile (fun c => c = markCh)).length

/-- Python `line.startswith('=')`. -/
def startsMark (l : String) : Bool :=
  match l.toList with
  | c :: _ => c = markCh
  | [] => false

/-- Model of `indent_titles`: the file content is given as its list of
lines.  The result is `none` when the function returns without opening the
file for writing (the content on disk is untouched), and `some` of the
rewritten lines otherwise.  When no line has a leading marker the scan
leaves `indent` at zero, which the `indent <= 0` test turns into an early
return. -/
def indent_titles (content : List String) (level : String) : Option (List String) :=
  match content.find? (fun l => 0 < leadingMarkers l) with
  | none => none
  | some l0 =>
    let indent : Int := (level.length : Int) - leadingMarkers l0
    if indent ≤ 0 then none
    else some (content.map (fun l =>
      if startsMark l then markersOf indent.toNat ++ l else l))

/-- An XML element: tag, attributes, child elements and text content.
Text content is a `PyText` payload since its only semantic uses are JSON
decoding and verbatim rendering. -/
inductive XElem where
  | mk (tag : String) (attrs : List (String × String)) (children : List XElem)
      (text : Option PyText)

/-- The tag of an element. -/
def XElem.tag : XElem → String
  | .mk t _ _ _ => t

/-- The attributes of an element. -/
def XElem.attrs : XElem → List (String × String)
  | .mk _ a _ _ => a

/-- The child elements of an element. -/
def XElem.children : XElem → List XElem
  | .mk _ _ c _ => c

/-- The text content of an element (`elem.text`). -/
def XElem.text : XElem → Option PyText
  | .mk _ _ _ t => t

/-- Model of `elem.get(name)`: attribute lookup. -/
def XElem.get (e : XElem) (a : String) : Option String :=
  (e.attrs.find? (fun p => p.1 = a)).map (·.2)

/-- Model of `elem.find(tag)`: first direct child with the given tag. -/
def XElem.find (e : XElem) (t : String) : Option XElem :=
  e.children.find? (fun c => c.tag = t)

/-- Model of `elem.findall(tag)`: all direct children with the given tag. -/
def XElem.findall (e : XElem) (t : String) : List XElem :=
  e.children.filter (fun c => c.tag = t)

/-- Python `s.strip()`: drop leading and trailing whitespace. -/
def pyTrim (s : String) : String :=
  String.mk ((s.toList.dropWhile Char.isWhitespace).reverse.dropWhile
    Char.isWhitespace).reverse

/-- Digits of a Python `int()` literal body, with underscores permitted
between digits but not leading, trailing or doubled. -/
def pyIntBody : List Char → Bool
  | [] => false
  | [c] => c.isDigit
  | c :: c2 :: rest =>
    if c2 = '_' then c.isDigit && pyIntBody rest
    else c.isDigit && pyIntBody (c2 :: rest)

/-- Numeric value of a digit string (underscores ignored). -/
def digitsVal (cs : List Char) : Nat :=
  (cs.filter Char.isDigit).foldl (fun acc c => acc * 10 + (c.toNat - 48)) 0

/-- Python `int(s)` on a string: strip whitespace, optional sign, digits. -/
def pyIntParse (s : String) : Option Int :=
  match (pyTrim s).toList with
  | '+' :: rest => if pyIntBody rest then some (digitsVal rest) else none
  | '-' :: rest => if pyIntBody rest then some (-(digitsVal rest : Int)) else none
  | cs => if pyIntBody cs then some (digitsVal cs) else none

/-- Python `int(x)` for an optional attribute value: `int(None)` raises
`TypeError`, an unparsable string raises `ValueError`. -/
def pyInt : Option String → Except PyExn Int
  | none => .error .typeError
  | some s =>
    match pyIntParse s with
    | some v => .ok v
    | none => .error .valueError

/-- Validity of the mantissa of a decimal literal: digits with at most one
point and at least one digit. -/
def decMantOk (cs : List Char) : Bool :=
  match cs.span (fun c => c ≠ '.') with
  | (ip, []) => !ip.isEmpty && ip.all Char.isDigit
  | (ip, _ :: fp) =>
    !(ip ++ fp).isEmpty && (ip ++ fp).all Char.isDigit && !fp.contains '.'

/-- Validity of the body of a decimal literal: mantissa with an optional
exponent part. -/
def decBody (cs : List Char) : Bool :=
  match cs.span (fun c => c ≠ 'e' && c ≠ 'E') with
  | (m, []) => decMantOk m
  | (m, _ :: ex) =>
    decMantOk m &&
      (match ex with
       | '+' :: ds => !ds.isEmpty && ds.all Char.isDigit
       | '-' :: ds => !ds.isEmpty && ds.all Char.isDigit
       | ds => !ds.isEmpty && ds.all Char.isDigit)

/-- Validity of a string for `decimal.Decimal` (numeric literals only; the
special values NaN and Infinity are not needed here). -/
def decValid (s : String) : Bool :=
  match (pyTrim s).toList with
  | '+' :: rest => decBody rest
  | '-' :: rest => decBody rest
  | cs => decBody cs

/-- A `decimal.Decimal` value, kept as its (validated) source text.  Only
identity matters to the developments below; the normalisation `Decimal`
applies to its printed form is not modelled. -/
structure Dec where
  text : String
  deriving DecidableEq

/-- Model of `Decimal(s)`: invalid literals raise `InvalidOperation`. -/
def pyDecimal (s : String) : Except PyExn Dec :=
  if decValid s then .ok ⟨s⟩ else .error .invalidOperation

/-- Printed form of a `Decimal` (see `Dec`). -/
def Dec.toStr (d : Dec) : String := pyTrim d.text

/-- The polymorphic value held by a test case's `duration`: a `Decimal`
parsed from the `time` attribute, or a raw JSON value taken from stdout
during timing backfill. -/
inductive PyVal where
  | dec (d : Dec)
  | json (v : JVal)

/-- Printed form of a duration value. -/
def PyVal.toStr : PyVal → String
  | .dec d => d.toStr
  | .json v => pyStr v

/-- Result of a test case: Python `True`, `False` or the string `'error'`. -/
inductive TCResult where
  | success
  | failure
  | error
  deriving DecidableEq

/-- A test case (class `TestCase`).  The uuid is drawn from a supply of
distinct identifiers, modelling `uuid4()`; properties are stored as
name/value pairs (property elements lacking a name or value attribute are
not modelled). -/
structure TestCase where
  uuid : String
  name : Option String
  suite : Option String
  timestamp : Option JVal
  duration : Option PyVal
  result : TCResult
  reason : Option String
  stdout : Option PyText
  props : List (String × String)

/-- Identifier drawn from the uuid supply at position `n`. -/
def uuidName (n : Nat) : String := "uuid-" ++ toString n

/-- Model of `TestCase._result_reason_from_elem`. -/
def TestCase._result_reason_from_elem (elem : XElem) : TCResult × Option String :=
  match elem.find "failure" with
  | some child => (.failure, child.get "message")
  | none =>
    match elem.find "error" with
    | some child => (.error, child.get "message")
    | none => (.success, none)

/-- Model of `TestCase._stdout_from_elem`. -/
def TestCase._stdout_from_elem (elem : XElem) : Option PyText :=
  (elem.find "system-out").bind XElem.text

/-- Properties of a test case element: the name/value pairs of the
`<property>` children of the `<properties>` child. -/
def TestCase._props_from_elem (elem : XElem) : List (String × String) :=
  match elem.find "properties" with
  | none => []
  | some props =>
    (props.findall "property").filterMap (fun ch =>
      match ch.get "name", ch.get "value" with
      | some k, some v => some (k, v)
      | _, _ => none)

/-- Last value bound to `k` among the properties (dict overwrite
semantics: the last write wins). -/
def propsGet (props : List (String × String)) (k : String) : Option String :=
  (props.reverse.find? (fun p => p.1 = k)).map (·.2)

/-- Truthiness of the timestamp field (`None` is falsy). -/
def jOptTruthy : Option JVal → Bool
  | none => false
  | some v => v.truthy

/-- Model of `TestCase._use_timing_from_stdout`: set timestamp and duration
from a JSON object in stdout.  `TypeError`, `JSONDecodeError` and
`AttributeError` are caught (the case is returned unchanged); a truthy
timestamp with a missing `duration` key raises `KeyError`. -/
def TestCase._use_timing_from_stdout (c : TestCase) : Except PyExn TestCase :=
  match loads c.stdout with
  | .error _ => .ok c
  | .ok dct =>
    match dct with
    | .obj kvs =>
      match lookupFirst kvs "timestamp" with
      | none => .ok c
      | some ts =>
        if ts.truthy then
          match lookupFirst kvs "duration" with
          | some d => .ok { c with timestamp := some ts, duration := some (.json d) }
          | none => .error (.keyError "duration")
        else .ok c
    | _ => .ok c

/-- Construction of a test case from a `<testcase>` element, except for the
uuid (attached by `TestCase.ofElem`). -/
def TestCase.build (elem : XElem) : Except PyExn TestCase :=
  let timestamp := (elem.get "timestamp").map JVal.str
  match (match elem.get "time" with
         | none => Except.ok (none : Option PyVal)
         | some t => (pyDecimal t).map (fun d => some (.dec d))) with
  | .error e => .error e
  | .ok duration =>
    let rr := TestCase._result_reason_from_elem elem
    let c : TestCase :=
      { uuid := ""
        name := elem.get "name"
        suite := elem.get "classname"
        timestamp := timestamp
        duration := duration
        result := rr.1
        reason := rr.2
        stdout := TestCase._stdout_from_elem elem
        props := TestCase._props_from_elem elem }
    if !jOptTruthy timestamp || duration.isNone then
      TestCase._use_timing_from_stdout c
    else .ok c

/-- Model of `TestCase.__init__`, threading the uuid supply. -/
def TestCase.ofElem (elem : XElem) (n : Nat) : Except PyExn (TestCase × Nat) :=
  match TestCase.build elem with
  | .error e => .error e
  | .ok c => .ok ({ c with uuid := uuidName n }, n + 1)

/-- Asciidoc marker for a value not recorded. -/
def NOT_RECORDED : String := "[.deemphasize]_not recorded_"

/-- Asciidoc marker for an empty cell. -/
def EMPTY : String := "[.deemphasize]#-#"

/-- Model of `a_test_success`. -/
def a_test_success (val : String) : String := "[.test-success]#" ++ val ++ "#"

/-- Model of `a_test_failure`. -/
def a_test_failure (val : String) : String := "[.test-failure]#" ++ val ++ "#"

/-- Model of `a_test_error`. -/
def a_test_error (val : String) : String := "[.test-error]#" ++ val ++ "#"

/-- Model of `literal_block`. -/
def literal_block (val : String) : String :=
  "\n".intercalate ["", "....", val, "...."]

/-- Model of `row`: an asciidoc table row from cells already converted to
their `str()` form. -/
def row (cells : List String) : String :=
  "\n|\n" ++ "\n|\n".intercalate cells

/-- The result of a test case as asciidoc (property `a_result`). -/
def TestCase.a_result (c : TestCase) : String :=
  match c.result with
  | .success => a_test_success "success"
  | .failure => a_test_failure "failure"
  | .error => a_test_error "error"

/-- Anchor for a test case result. -/
def TestCase.anchor_result (c : TestCase) : String := "[#" ++ c.uuid ++ "_result]"

/-- Cross-reference to a test case result. -/
def TestCase.xref_result (c : TestCase) : String := "<<" ++ c.uuid ++ "_result>>"

/-- Anchor for a test case specification. -/
def TestCase.anchor_spec (c : TestCase) : String := "[#" ++ c.uuid ++ "_spec]"

/-- Cross-reference to a test case specification. -/
def TestCase.xref_spec (c : TestCase) : String := "<<" ++ c.uuid ++ "_spec>>"

/-- Test detail for a test case: `(title, path)` image pairs and
`(title, table)` pairs, both holding raw JSON values where the source
does. -/
structure TestDetail where
  images : List (JVal × JVal)
  tables : List (String × List (String × JVal))

/-- Model of `TestDetail._image_item`: a mapping yields its `title` and
`path` entries (a missing `path` raises `KeyError`), a string yields itself
as path; any other value yields `None` (its `.get` raises
`AttributeError`, which is caught). -/
def TestDetail._image_item (item : JVal) : Except PyExn (Option (JVal × JVal)) :=
  match item with
  | .obj kvs =>
    match lookupFirst kvs "path" with
    | some p => .ok (some ((lookupFirst kvs "title").getD .null, p))
    | none => .error (.keyError "path")
  | .str s => .ok (some (.null, .str s))
  | _ => .ok none

/-- The image-collection loop of `TestDetail.from_output`: only
`ValueError` is caught (yielding `None` from `from_output`, encoded as
`.ok none`); unpacking a `None` item raises `TypeError`. -/
def TestDetail.imagesFromItems :
    List JVal → List (JVal × JVal) → Except PyExn (Option (List (JVal × JVal)))
  | [], acc => .ok (some acc)
  | item :: rest, acc =>
    match TestDetail._image_item item with
    | .error .valueError => .ok none
    | .error e => .error e
    | .ok none => .error .typeError
    | .ok (some pair) => TestDetail.imagesFromItems rest (acc ++ [pair])

/-- Is a JSON value a string? -/
def JVal.isStr : JVal → Bool
  | .str _ => true
  | _ => false

/-- The string payload of a JSON string (only used under `isStr`). -/
def JVal.strVal : JVal → String
  | .str s => s
  | _ => ""

/-- The analysis loop of `TestDetail.from_output`: nested objects become
per-key tables, sequences are joined into multi-line strings in the
synthetic analysis table (`'\n'.join` raises `TypeError` on a non-string
element, caught to yield `None`), other values enter the synthetic table
as scalars; the synthetic table, when non-empty, is inserted first. -/
def TestDetail.analysisTables :
    List (String × JVal) → List (String × List (String × JVal)) →
      List (String × JVal) → Option (List (String × List (String × JVal)))
  | [], tables, analysis =>
    some (if analysis.isEmpty then tables else ("analysis", analysis) :: tables)
  | (key, val) :: rest, tables, analysis =>
    match val with
    | .obj okvs => TestDetail.analysisTables rest (tables ++ [(key, okvs)]) analysis
    | .arr xs =>
      if xs.all JVal.isStr then
        TestDetail.analysisTables rest tables
          (dictInsert analysis key (.str ("\n".intercalate (xs.map JVal.strVal))))
      else none
    | _ => TestDetail.analysisTables rest tables (dictInsert analysis key val)

/-- Model of `TestDetail.from_output`.  The result is `.ok none` when the
source returns `None`, `.ok (some d)` when it returns a detail, and
`.error e` when an exception escapes to the caller. -/
def TestDetail.from_output (output : Option PyText) : Except PyExn (Option TestDetail) :=
  match loads output with
  | .error _ => .ok none
  | .ok (.obj kvs) =>
    if (kvs.map Prod.fst).contains "result" && (kvs.map Prod.fst).contains "reason" then
      match (match lookupFirst kvs "plot" with
             | none => Except.ok []
             | some v => pyIter v) with
      | .error e => .error e
      | .ok items =>
        match TestDetail.imagesFromItems items [] with
        | .error e => .error e
        | .ok none => .ok none
        | .ok (some images) =>
          match lookupFirst kvs "analysis" with
          | none => .ok (some ⟨images, []⟩)
          | some .null => .ok (some ⟨images, []⟩)
          | some (.obj dkvs) =>
            match TestDetail.analysisTables dkvs [] [] with
            | none => .ok none
            | some tables => .ok (some ⟨images, tables⟩)
          | some _ => .ok none
    else .ok none
  | .ok _ => .ok none

/-- Does the string end with a slash? -/
def endsWithSlash (a : String) : Bool :=
  match a.toList.reverse with
  | c :: _ => c = '/'
  | [] => false

/-- Model of `os.path.join(a, b)` for POSIX paths (two components). -/
def pathJoin (a b : String) : String :=
  if pyStartswith b "/" then b
  else if a = "" then a ++ b
  else if endsWithSlash a then a ++ b
  else a ++ "/" ++ b

/-- Model of `os.path.basename`: the part after the last slash. -/
def pyBasename (p : String) : String :=
  String.mk (p.toList.reverse.takeWhile (fun c => c ≠ '/')).reverse

/-- Extension part of `os.path.splitext`: from the last dot of the
basename, ignoring leading dots. -/
def splitextExt (p : String) : String :=
  let b := (pyBasename p).toList
  let lead := (b.takeWhile (fun c => c = '.')).length
  let rest := b.drop lead
  let revSuffix := rest.reverse.takeWhile (fun c => c ≠ '.')
  if revSuffix.length = rest.length then ""
  else String.mk ('.' :: revSuffix.reverse)

/-- Per-suite configuration: repository name and base URL. -/
structure SuiteConfig where
  repository : String
  baseurl : String

/-- Configuration of asciidoc generation (class `Config`), with the
filesystem contents the configuration can read modelled as a path/content
association list. -/
structure Config where
  repositories : List (String × String)
  suites : List (String × SuiteConfig)
  fs : List (String × String)

/-- String lookup in an association list. -/
def lookupStr {α : Type} (l : List (String × α)) (k : String) : Option α :=
  (l.find? (fun p => p.1 = k)).map (·.2)

/-- Model of `Config.case_path`: path to the files for a case, or `None`
when any lookup fails (`KeyError` caught) or the test id does not start
with the suite's base URL.  After the prefix check,
`test_id.split(baseurl, maxsplit=1)[1]` equals dropping the prefix (the
source would raise `ValueError` for an empty base URL, a configuration not
modelled). -/
def Config.case_path (cfg : Config) (c : TestCase) : Option String :=
  match propsGet c.props "test_id" with
  | none => none
  | some test_id =>
    match c.suite with
    | none => none
    | some sname =>
      match lookupStr cfg.suites sname with
      | none => none
      | some suite =>
        if pyStartswith test_id suite.baseurl then
          match lookupStr cfg.repositories suite.repository with
          | none => none
          | some root =>
            some (pathJoin root
              (lstripChars (test_id.drop suite.baseurl.length) ['/']))
        else none

/-- Model of `Config.case_path_testspec`: the `testspec.adoc` path when it
is a regular file; the `TypeError` from joining `None` is caught. -/
def Config.case_path_testspec (cfg : Config) (c : TestCase) : Option String :=
  match cfg.case_path c with
  | none => none
  | some p =>
    let path := pathJoin p "testspec.adoc"
    if (lookupStr cfg.fs path).isSome then some path else none

/-- Lines of a file's content, as iterated by the source (terminators are
immaterial here: the title text is right-stripped). -/
def fileLines (content : String) : List String :=
  content.splitOn "\n"

/-- Model of `Config.case_title`: text of the first title line of the
testspec file, else the case's name. -/
def Config.case_title (cfg : Config) (c : TestCase) : Option String :=
  match cfg.case_path_testspec c with
  | none => c.name
  | some path =>
    match (fileLines ((lookupStr cfg.fs path).getD "")).find? startsMark with
    | some line => some (rstripWs (lstripChars line ['=', ' ']))
    | none => c.name

/-- Suite-level metadata (the dict built by `TestSuite._metadata_from_elem`). -/
structure SuiteMeta where
  tests : Int
  errors : Int
  failures : Int
  success : Int
  skipped : Int
  hostname : Option String
  timestamp : Option String
  duration : Option Dec

/-- Model of `TestSuite._metadata_from_elem`, raising in the source's
evaluation order: the counts through `int()`, then `Decimal` on `time`. -/
def TestSuite._metadata_from_elem (elem : XElem) : Except PyExn SuiteMeta :=
  match pyInt (elem.get "tests") with
  | .error e => .error e
  | .ok tests =>
  match pyInt (elem.get "errors") with
  | .error e => .error e
  | .ok errors =>
  match pyInt (elem.get "failures") with
  | .error e => .error e
  | .ok failures =>
  match pyInt (elem.get "skipped") with
  | .error e => .error e
  | .ok skipped =>
  match (match elem.get "time" with
         | none => Except.ok (none : Option Dec)
         | some t => (pyDecimal t).map some) with
  | .error e => .error e
  | .ok duration =>
    .ok ⟨tests, errors, failures, tests - (errors + failures), skipped,
      elem.get "hostname", elem.get "timestamp", duration⟩

/-- A test suite: name, metadata and cases in insertion order with unique
names (class `TestSuite`). -/
structure TestSuite where
  name : Option String
  meta : SuiteMeta
  cases : List TestCase

/-- Membership of an optional name in a list of optional names. -/
def memOpt (xs : List (Option String)) (x : Option String) : Bool :=
  xs.any (fun y => y = x)

/-- Does the list of optional names contain a duplicate? -/
def hasDupL : List (Option String) → Bool
  | [] => false
  | x :: xs => memOpt xs x || hasDupL xs

/-- Quote a string in double quotes, as the duplicate error messages do. -/
def quoted (s : String) : String := "\"" ++ s ++ "\""

/-- The case-construction loop of `TestSuite.__init__`: build each case,
raising `KeyError` on a duplicate case name. -/
def TestSuite.addCases :
    List XElem → List TestCase → Nat → Except PyExn (List TestCase × Nat)
  | [], acc, n => .ok (acc, n)
  | ch :: rest, acc, n =>
    match TestCase.build ch with
    | .error e => .error e
    | .ok c0 =>
      let c := { c0 with uuid := uuidName n }
      if memOpt (acc.map TestCase.name) c.name then
        .error (.keyError ("duplicate test case " ++ quoted (optStr c.name)))
      else
        TestSuite.addCases rest (acc ++ [c]) (n + 1)

/-- Model of `TestSuite.__init__`, threading the uuid supply. -/
def TestSuite.ofElem (elem : XElem) (n : Nat) : Except PyExn (TestSuite × Nat) :=
  match TestSuite._metadata_from_elem elem with
  | .error e => .error e
  | .ok meta =>
    match TestSuite.addCases (elem.findall "testcase") [] n with
    | .error e => .error e
    | .ok (cases, n1) => .ok (⟨elem.get "name", meta, cases⟩, n1)

/-- The suite-inclusion loop of `TestSuites.include`: build each suite of
the parsed document, raising `KeyError` on a duplicate suite name. -/
def TestSuites.addSuites :
    List XElem → List TestSuite → Nat → Except PyExn (List TestSuite × Nat)
  | [], acc, n => .ok (acc, n)
  | el :: rest, acc, n =>
    match TestSuite.ofElem el n with
    | .error e => .error e
    | .ok (suite, n1) =>
      if memOpt (acc.map TestSuite.name) suite.name then
        .error (.keyError ("duplicate test suite " ++ quoted (optStr suite.name)))
      else
        TestSuites.addSuites rest (acc ++ [suite]) n1

/-- Model of `TestSuites.include`: include the `<testsuite>` elements of a
parsed document's root into the collection. -/
def TestSuites.include_doc (suites : List TestSuite) (root : XElem) (n : Nat) :
    Except PyExn (List TestSuite × Nat) :=
  TestSuites.addSuites (root.findall "testsuite") suites n

/-- Insert a string into a sorted list (ascending). -/
def strInsert (x : String) : List String → List String
  | [] => [x]
  | y :: ys => if y < x then y :: strInsert x ys else x :: y :: ys

/-- Sort strings ascending (Python `sorted` over dict keys). -/
def sortStrs : List String → List String
  | [] => []
  | x :: xs => strInsert x (sortStrs xs)

/-- Printed form of an optional `Decimal` (`str(None) = "None"`). -/
def optDecStr : Option Dec → String
  | none => "None"
  | some d => d.toStr

/-- Python `x or d` where `x` is an optional JSON value. -/
def jOrStr (x : Option JVal) (d : String) : String :=
  match x with
  | none => d
  | some v => if v.truthy then pyStr v else d

/-- Truthiness of the optional stdout text. -/
def stdoutTruthy : Option PyText → Bool
  | none => false
  | some t => t.text != ""

/-- The character content of the optional stdout text. -/
def stdoutText : Option PyText → String
  | none => ""
  | some t => t.text

/-- Lines for one detail table (the table loop of `TestDetail.to_asciidoc`):
two-column layout, bolded keys in sorted order. -/
def tableLines (title : String) (dct : List (String × JVal)) : List String :=
  ["", "." ++ title, "[cols=\"1,4\"]", "|===", ""] ++
    (sortStrs (dct.map Prod.fst)).map (fun k =>
      row ["*" ++ k ++ "*", pyStr ((lookupFirst dct k).getD .null)]) ++
    ["", "|==="]

/-- Lines for the detail images (the image loop of `TestDetail.to_asciidoc`):
each image file is copied under a fresh identifier from the uuid supply,
preserving the extension; a non-string path raises `TypeError` in
`os.path.splitext`. -/
def TestDetail.imagesLines :
    List (JVal × JVal) → Nat → Except PyExn (List String × Nat)
  | [], n => .ok ([], n)
  | (title, path) :: rest, n =>
    match path with
    | .str p =>
      let filename := uuidName n ++ splitextExt p
      let caption := if title.truthy then pyStr title else pyBasename p
      match TestDetail.imagesLines rest (n + 1) with
      | .error e => .error e
      | .ok (ls, n1) =>
        .ok (["", "." ++ caption, "image::" ++ filename ++ "[]"] ++ ls, n1)
    | _ => .error .typeError

/-- Model of `TestDetail.to_asciidoc` (the emitted lines; the image file
copies are not text output). -/
def TestDetail.to_asciidoc (d : TestDetail) (n : Nat) :
    Except PyExn (List String × Nat) :=
  match TestDetail.imagesLines d.images n with
  | .error e => .error e
  | .ok (il, n1) =>
    .ok (il ++ (d.tables.map (fun t => tableLines t.1 t.2)).flatten, n1)

/-- Lines of the results pass for one test case (the loop body of
`TestSuite.results`). -/
def TestCase.result_lines (cfg : Config) (lvl : String) (c : TestCase)
    (n : Nat) : Except PyExn (List String × Nat) :=
  let head : List String :=
    ["", c.anchor_result, lvl ++ " " ++ optStr (Config.case_title cfg c), "",
     "[cols=\"1,4\"]", "|===", "",
     row ["*test specification*", c.xref_spec],
     row ["*test identifier*", orStr (propsGet c.props "test_id") NOT_RECORDED],
     row ["*timestamp*", jOrStr c.timestamp NOT_RECORDED],
     row ["*duration (s)*",
       match c.duration with | none => NOT_RECORDED | some v => v.toStr],
     row ["*result*", c.a_result],
     row ["*reason*", orStr c.reason EMPTY],
     "|==="]
  match TestDetail.from_output c.stdout with
  | .error e => .error e
  | .ok (some d) =>
    match TestDetail.to_asciidoc d n with
    | .error e => .error e
    | .ok (dl, n1) => .ok (head ++ dl ++ ["", "<<<"], n1)
  | .ok none =>
    .ok (head ++
      (if stdoutTruthy c.stdout then [literal_block (stdoutText c.stdout)] else []) ++
      ["", "<<<"], n)

/-- The case loop of `TestSuite.results`. -/
def TestSuite.resultsGo (cfg : Config) (lvl : String) :
    List TestCase → Nat → Except PyExn (List String × Nat)
  | [], n => .ok ([], n)
  | c :: rest, n =>
    match TestCase.result_lines cfg lvl c n with
    | .error e => .error e
    | .ok (ls, n1) =>
      match TestSuite.resultsGo cfg lvl rest n1 with
      | .error e => .error e
      | .ok (ls2, n2) => .ok (ls ++ ls2, n2)

/-- Model of `TestSuite.results`. -/
def TestSuite.results (cfg : Config) (lvl : String) (ts : TestSuite) (n : Nat) :
    Except PyExn (List String × Nat) :=
  TestSuite.resultsGo cfg lvl ts.cases n

/-- The suite loop of `TestSuites.results`. -/
def TestSuites.resultsGo (cfg : Config) (lvl : String) :
    List TestSuite → Nat → Except PyExn (List String × Nat)
  | [], n => .ok ([], n)
  | ts :: rest, n =>
    match TestSuite.results cfg (lvl ++ "=") ts n with
    | .error e => .error e
    | .ok (ls, n1) =>
      match TestSuites.resultsGo cfg lvl rest n1 with
      | .error e => .error e
      | .ok (ls2, n2) =>
        .ok ((["", lvl ++ " Test Suite: " ++ optStr ts.name] ++ ls ++ ["", "<<<"]) ++ ls2, n2)

/-- The results rendering pass over a suite collection, threading the uuid
supply. -/
def TestSuites.resultsPass (suites : List TestSuite) (cfg : Config)
    (lvl : String) (n : Nat) : Except PyExn (List String × Nat) :=
  TestSuites.resultsGo cfg lvl suites n

/-- Model of `TestSuite.summary`. -/
def TestSuite.summary (ts : TestSuite) : List String :=
  ["", "[cols=\"1,3\"]", "|===", "",
   row ["*hostname*", orStr ts.meta.hostname NOT_RECORDED],
   row ["*started*", orStr ts.meta.timestamp NOT_RECORDED],
   row ["*duration (s)*", optDecStr ts.meta.duration],
   row ["*test cases*", toString ts.meta.tests],
   row ["*test error*", toString ts.meta.errors],
   row ["*test failure*", toString ts.meta.failures],
   row ["*test success*", toString ts.meta.success],
   "", "|===", "", "[%header,cols=\"5,1\"]", "|===", "|case|result"] ++
    ts.cases.map (fun c => row [c.xref_result, c.a_result]) ++
    ["|==="]

/-- Lines of the summary pass (`TestSuites.summary`). -/
def TestSuites.summaryLines (suites : List TestSuite) (lvl : String) : List String :=
  (suites.map (fun ts =>
    ["", lvl ++ " Test Suite: " ++ optStr ts.name] ++ ts.summary ++ ["", "<<<"])).flatten

/-- The summary rendering pass, threading the uuid supply (this pass draws
no identifiers from it). -/
def TestSuites.summaryPass (suites : List TestSuite) (lvl : String) (n : Nat) :
    List String × Nat :=
  (TestSuites.summaryLines suites lvl, n)

/-- Lines of the specifications pass for one test case (the loop body of
`TestSuite.specs`); the copied and re-levelled spec file is not text
output. -/
def TestCase.spec_lines (cfg : Config) (c : TestCase) : List String :=
  match Config.case_path_testspec cfg c with
  | some _ => ["", c.anchor_spec, "include::" ++ c.uuid ++ ".adoc[]", "", "<<<"]
  | none =>
    ["", c.anchor_spec,
     "_(No test specification for " ++ optStr (Config.case_title cfg c) ++ ")_",
     "", "<<<"]

/-- Model of `TestSuite.specs`. -/
def TestSuite.specs (cfg : Config) (ts : TestSuite) : List String :=
  (ts.cases.map (fun c => TestCase.spec_lines cfg c)).flatten

/-- Lines of the specifications pass (`TestSuites.specs`). -/
def TestSuites.specsLines (suites : List TestSuite) (cfg : Config)
    (lvl : String) : List String :=
  (suites.map (fun ts =>
    ["", lvl ++ " Test Suite: " ++ optStr ts.name] ++ ts.specs cfg ++ ["", "<<<"])).flatten

/-- The specifications rendering pass, threading the uuid supply (this pass
draws no identifiers from it: copied files are named by the case's stored
uuid). -/
def TestSuites.specsPass (suites : List TestSuite) (cfg : Config)
    (lvl : String) (n : Nat) : List String × Nat :=
  (TestSuites.specsLines suites cfg lvl, n)

/-- The text of a rendering pass: its lines joined by newlines, as
`print(*gen, sep=chr(10))` emits them. -/
def passText (lines : List String) : String :=
  "\n".intercalate lines

/-- A line not beginning with the marker has no leading markers. -/
theorem leadingMarkers_eq_zero (l : String) (h : startsMark l = false) :
    leadingMarkers l = 0 := by
  unfold startsMark at h
  unfold leadingMarkers
  cases hl : l.toList with
  | nil => simp [hl]
  | cons c cs =>
    rw [hl] at h
    simp at h
    simp [hl, List.takeWhile_cons, h]

/-- C5.  `indent_titles` computes the shift as the target depth minus the
leading-marker count of the first line beginning with the heading marker;
a non-positive shift leaves the file untouched, and a positive shift
prefixes every heading line with exactly that many extra markers while
copying every other line unchanged. -/
theorem c5_indent_titles_shift (content : List String) (level l0 : String)
    (h : content.find? (fun l => 0 < leadingMarkers l) = some l0) :
    ((level.length : Int) - leadingMarkers l0 ≤ 0 →
      indent_titles content level = none)
    ∧ (0 < (level.length : Int) - leadingMarkers l0 →
      indent_titles content level = some (content.map (fun l =>
        if startsMark l then
          markersOf ((level.length : Int) - (leadingMarkers l0 : Int)).toNat ++ l
        else l))) := by
  unfold indent_titles
  rw [h]
  dsimp only
  constructor
  · intro h2
    rw [if_pos h2]
  · intro h2
    rw [if_neg (by omega)]

/-- Witness for C5: a document whose first heading has one marker,
re-levelled to a target depth of three markers, gains exactly two markers
on every heading line. -/
theorem c5_indent_titles_shift_witness :
    indent_titles ["= T", "body", "== S"] "===" =
      some ["=== T", "body", "==== S"] := by
  have h := (c5_indent_titles_shift ["= T", "body", "== S"] "===" "= T"
    (by rfl)).2 (by decide)
  exact h.trans (by decide)

/-- C10.  When no line of the file begins with the heading marker,
`indent_titles` returns without opening the file for writing, leaving the
content untouched. -/
theorem c10_no_heading_no_write (content : List String) (level : String)
    (h : ∀ l ∈ content, startsMark l = false) :
    indent_titles content level = none := by
  unfold indent_titles
  have hfind : content.find? (fun l => 0 < leadingMarkers l) = none := by
    rw [List.find?_eq_none]
    intro l hl
    simp [leadingMarkers_eq_zero l (h l hl)]
  rw [hfind]

/-- Witness for C10 at a concrete file content. -/
theorem c10_no_heading_no_write_witness :
    indent_titles ["plain text", "more == not heading", ""] "===" = none :=
  c10_no_heading_no_write ["plain text", "more == not heading", ""] "==="
    (by decide)

/-- C7.  Whenever a `<failure>` child exists, the constructed result is
failure with that child's message, regardless of any `<error>` child. -/
theorem c7_failure_precedence (elem f : XElem)
    (h : elem.find "failure" = some f) :
    TestCase._result_reason_from_elem elem = (.failure, f.get "message") := by
  unfold TestCase._result_reason_from_elem
  rw [h]

/-- Witness for C7: an element carrying both an `<error>` child (first in
document order) and a `<failure>` child still yields failure with the
failure's message. -/
theorem c7_failure_precedence_witness :
    TestCase._result_reason_from_elem
      (.mk "testcase" [("name", "a")]
        [.mk "error" [("message", "em")] [] none,
         .mk "failure" [("message", "fm")] [] none] none) =
      (.failure, some "fm") :=
  c7_failure_precedence
    (.mk "testcase" [("name", "a")]
      [.mk "error" [("message", "em")] [] none,
       .mk "failure" [("message", "fm")] [] none] none)
    (.mk "failure" [("message", "fm")] [] none) rfl

/-- Configuration for C8: repository `r` at `/data/r`, suite `s` with that
repository and base URL `http://x/`. -/
def cfgC8 : Config := ⟨[("r", "/data/r")], [("s", ⟨"r", "http://x/"⟩)], []⟩

/-- Case for C8: in suite `s`, with property `test_id = http://x/sub/case`. -/
def caseC8 : TestCase :=
  ⟨"u0", some "c", some "s", none, none, .success, none, none,
    [("test_id", "http://x/sub/case")]⟩

/-- C8.  The spec directory for the case resolves to `/data/r/sub/case`. -/
theorem c8_case_path_resolution :
    Config.case_path cfgC8 caseC8 = some "/data/r/sub/case" := rfl

/-- Stdout of C1 as stated: the analysis value under `x` is a list of
numbers. -/
def c1Stdout : Option PyText :=
  some (.jsonOf (.obj [("result", .bool true), ("reason", .null),
    ("analysis", .obj [("x", .arr [.num 1, .num 2]),
                       ("y", .obj [("a", .num 1)])])]))

/-- Stdout of C1 with string list elements, on which extraction succeeds. -/
def c1StdoutStrs : Option PyText :=
  some (.jsonOf (.obj [("result", .bool true), ("reason", .null),
    ("analysis", .obj [("x", .arr [.str "1", .str "2"]),
                       ("y", .obj [("a", .num 1)])])]))

/-- Counterexample to C1: on the stated stdout, `'\n'.join` meets the
non-string elements `1` and `2`, its `TypeError` is caught, and detail
extraction returns `None` — not the two claimed tables. -/
theorem c1_counterexample :
    TestDetail.from_output c1Stdout = .ok none
    ∧ TestDetail.from_output c1Stdout ≠
        .ok (some ⟨[], [("analysis", [("x", .str "1\n2")]),
                        ("y", [("a", .num 1)])]⟩) := by
  have hval : TestDetail.from_output c1Stdout = .ok none := rfl
  refine ⟨hval, ?_⟩
  rw [hval]
  simp

/-- C1 amended.  When the sequence elements are the strings `"1"` and
`"2"`, extraction yields exactly two tables: the synthetic `analysis`
table first, with key `x` bound to the joined value, then table `y` with
`a = 1`. -/
theorem c1_amended_detail_tables :
    TestDetail.from_output c1StdoutStrs =
      .ok (some ⟨[], [("analysis", [("x", .str "1\n2")]),
                      ("y", [("a", .num 1)])]⟩) := rfl

/-- Stdout whose `plot` holds a mapping without a `path` key. -/
def c2StdoutA : Option PyText :=
  some (.jsonOf (.obj [("result", .bool true), ("reason", .null),
    ("plot", .arr [.obj [("title", .str "t")]])]))

/-- Stdout whose `plot` holds an item that is neither a string nor a
mapping. -/
def c2StdoutB : Option PyText :=
  some (.jsonOf (.obj [("result", .bool true), ("reason", .null),
    ("plot", .arr [.num 5])]))

/-- C2 exhibits a code bug: a mapping without `path` raises `KeyError`
(only `ValueError` is caught), and a non-string non-mapping item makes the
tuple unpacking of `None` raise `TypeError`; both escape
`TestDetail.from_output` to the caller instead of aborting to `None`. -/
theorem c2_exception_escapes :
    TestDetail.from_output c2StdoutA = .error (.keyError "path")
    ∧ TestDetail.from_output c2StdoutB = .error .typeError := ⟨rfl, rfl⟩

/-- Element for C3: no timing attributes, stdout a JSON object with a
`timestamp` field but no `duration` field. -/
def c3Elem : XElem :=
  .mk "testcase" [("name", "a")]
    [.mk "system-out" [] [] (some (.jsonOf (.obj [("timestamp", .str "T")])))]
    none

/-- Counterexample to C3: on a JSON object with a truthy `timestamp` but no
`duration`, `dct['duration']` raises `KeyError`, which is not among the
caught exceptions, so construction raises instead of completing. -/
theorem c3_counterexample :
    TestCase.ofElem c3Elem 0 = .error (.keyError "duration") := rfl

/-- Does the timing backfill leave the case untouched?  True when stdout is
not JSON, not an object, or lacks a truthy `timestamp` field. -/
def backfillNoop (s : Option PyText) : Bool :=
  match loads s with
  | .error _ => true
  | .ok (.obj kvs) =>
    match lookupFirst kvs "timestamp" with
    | none => true
    | some v => !v.truthy
  | .ok _ => true

/-- C3 amended.  Every backfill failure where stdout is not JSON, not an
object, or has no truthy `timestamp` field is silently ignored: the case is
returned unchanged and nothing is raised.  (A truthy `timestamp` with a
missing `duration` instead raises `KeyError`, per `c3_counterexample`.) -/
theorem c3_amended_backfill_silent (c : TestCase)
    (h : backfillNoop c.stdout = true) :
    TestCase._use_timing_from_stdout c = .ok c := by
  unfold backfillNoop at h
  unfold TestCase._use_timing_from_stdout
  cases hl : loads c.stdout with
  | error e => rfl
  | ok v =>
    rw [hl] at h
    cases v with
    | obj kvs =>
      dsimp only at h ⊢
      cases ht : lookupFirst kvs "timestamp" with
      | none => rfl
      | some ts =>
        rw [ht] at h
        dsimp only at h ⊢
        cases hb : ts.truthy with
        | true =>
          rw [hb] at h
          exact absurd h (by decide)
        | false => simp [hb]
    | null => rfl
    | bool b => rfl
    | num n => rfl
    | str s => rfl
    | arr xs => rfl

/-- Case for the C3 witness: stdout is not JSON. -/
def caseC3W : TestCase :=
  ⟨"u1", some "c", some "s", some (.str "T0"), none, .success, none,
    some (.raw "not json"), []⟩

/-- Witness for C3 amended, at a case whose stdout does not decode. -/
theorem c3_amended_backfill_silent_witness :
    backfillNoop caseC3W.stdout = true
    ∧ TestCase._use_timing_from_stdout caseC3W = .ok caseC3W :=
  ⟨rfl, c3_amended_backfill_silent caseC3W rfl⟩

/-- Successful metadata extraction requires all four count attributes to
parse as integers. -/
theorem metadata_ok_parts (e : XElem) (m : SuiteMeta)
    (h : TestSuite._metadata_from_elem e = .ok m) :
    (pyInt (e.get "tests")).isOk = true ∧ (pyInt (e.get "errors")).isOk = true
      ∧ (pyInt (e.get "failures")).isOk = true
      ∧ (pyInt (e.get "skipped")).isOk = true := by
  unfold TestSuite._metadata_from_elem at h
  cases h1 : pyInt (e.get "tests") with
  | error x => rw [h1] at h; exact absurd h (by simp)
  | ok t =>
    rw [h1] at h
    dsimp only at h
    cases h2 : pyInt (e.get "errors") with
    | error x => rw [h2] at h; exact absurd h (by simp)
    | ok er =>
      rw [h2] at h
      dsimp only at h
      cases h3 : pyInt (e.get "failures") with
      | error x => rw [h3] at h; exact absurd h (by simp)
      | ok fa =>
        rw [h3] at h
        dsimp only at h
        cases h4 : pyInt (e.get "skipped") with
        | error x => rw [h4] at h; exact absurd h (by simp)
        | ok sk => exact ⟨rfl, rfl, rfl, rfl⟩

/-- A successfully constructed suite has successfully extracted metadata. -/
theorem ofElem_ok_metadata (e : XElem) (n : Nat) (r : TestSuite × Nat)
    (h : TestSuite.ofElem e n = .ok r) :
    ∃ m, TestSuite._metadata_from_elem e = .ok m := by
  unfold TestSuite.ofElem at h
  cases hm : TestSuite._metadata_from_elem e with
  | error x => rw [hm] at h; exact absurd h (by simp)
  | ok m => exact ⟨m, rfl⟩

/-- C9.  Suite construction raises when any of the four count attributes is
missing or fails to parse as an integer, and succeeds only when all four
parse. -/
theorem c9_metadata_ints :
    (∀ (e : XElem) (n : Nat),
      ((pyInt (e.get "tests")).isOk = false ∨ (pyInt (e.get "errors")).isOk = false
        ∨ (pyInt (e.get "failures")).isOk = false
        ∨ (pyInt (e.get "skipped")).isOk = false) →
      (TestSuite.ofElem e n).isOk = false)
    ∧ (∀ (e : XElem) (n : Nat) (r : TestSuite × Nat),
      TestSuite.ofElem e n = .ok r →
      (pyInt (e.get "tests")).isOk = true ∧ (pyInt (e.get "errors")).isOk = true
        ∧ (pyInt (e.get "failures")).isOk = true
        ∧ (pyInt (e.get "skipped")).isOk = true) := by
  constructor
  · intro e n hbad
    cases hres : TestSuite.ofElem e n with
    | error x => rfl
    | ok r =>
      obtain ⟨m, hm⟩ := ofElem_ok_metadata e n r hres
      have hp := metadata_ok_parts e m hm
      rcases hbad with hb | hb | hb | hb <;> rw [hb] at hp <;> simp at hp
  · intro e n r hres
    obtain ⟨m, hm⟩ := ofElem_ok_metadata e n r hres
    exact metadata_ok_parts e m hm

/-- Element for C9 lacking the `tests` attribute. -/
def c9ElemBad : XElem :=
  .mk "testsuite" [("name", "s"), ("errors", "0"), ("failures", "0"),
    ("skipped", "0")] [] none

/-- Well-formed element for C9. -/
def c9ElemOk : XElem :=
  .mk "testsuite" [("name", "s"), ("tests", "2"), ("errors", "0"),
    ("failures", "0"), ("skipped", "0")] [] none

/-- Witness for C9 at concrete elements: a missing `tests` attribute makes
construction fail, and a successful construction has all four counts
parsed. -/
theorem c9_metadata_ints_witness :
    (TestSuite.ofElem c9ElemBad 0).isOk = false
    ∧ ((pyInt (c9ElemOk.get "tests")).isOk = true
        ∧ (pyInt (c9ElemOk.get "errors")).isOk = true
        ∧ (pyInt (c9ElemOk.get "failures")).isOk = true
        ∧ (pyInt (c9ElemOk.get "skipped")).isOk = true) :=
  ⟨c9_metadata_ints.1 c9ElemBad 0 (Or.inl rfl),
   c9_metadata_ints.2 c9ElemOk 0
     (⟨some "s", ⟨2, 0, 0, 2, 0, none, none, none⟩, []⟩, 0) rfl⟩

/-- Membership characterisation of `memOpt`. -/
theorem memOpt_iff (xs : List (Option String)) (x : Option String) :
    memOpt xs x = true ↔ x ∈ xs := by
  simp [memOpt]

/-- Duplicate characterisation of `hasDupL`. -/
theorem hasDupL_iff (l : List (Option String)) :
    hasDupL l = true ↔ ¬ l.Nodup := by
  induction l with
  | nil => simp [hasDupL]
  | cons x xs ih =>
    simp only [hasDupL, Bool.or_eq_true, memOpt_iff, ih, List.nodup_cons]
    tauto

/-- The timing backfill does not change the name of a case. -/
theorem use_timing_name (c0 c : TestCase)
    (h : TestCase._use_timing_from_stdout c0 = .ok c) : c.name = c0.name := by
  unfold TestCase._use_timing_from_stdout at h
  cases hl : loads c0.stdout with
  | error e =>
    rw [hl] at h
    try dsimp only at h
    injection h with h2
    rw [← h2]
  | ok v =>
    rw [hl] at h
    cases v with
    | obj kvs =>
      try dsimp only at h
      cases ht : lookupFirst kvs "timestamp" with
      | none =>
        rw [ht] at h
        try dsimp only at h
        injection h with h2
        rw [← h2]
      | some ts =>
        rw [ht] at h
        try dsimp only at h
        cases hb : ts.truthy with
        | true =>
          rw [hb] at h
          try dsimp only at h
          cases hd : lookupFirst kvs "duration" with
          | some d =>
            rw [hd] at h
            try dsimp only at h
            injection h with h2
            rw [← h2]
          | none =>
            rw [hd] at h
            exact absurd h (by simp)
        | false =>
          rw [hb] at h
          try dsimp only at h
          injection h with h2
          rw [← h2]
    | null => injection h with h2; rw [← h2]
    | bool b => injection h with h2; rw [← h2]
    | num n => injection h with h2; rw [← h2]
    | str s => injection h with h2; rw [← h2]
    | arr xs => injection h with h2; rw [← h2]

/-- Case construction preserves the element's `name` attribute. -/
theorem build_name (ch : XElem) (c : TestCase)
    (h : TestCase.build ch = .ok c) : c.name = ch.get "name" := by
  unfold TestCase.build at h
  cases hd : (match ch.get "time" with
              | none => Except.ok (none : Option PyVal)
              | some t => (pyDecimal t).map (fun d => some (.dec d))) with
  | error e => rw [hd] at h; exact absurd h (by simp)
  | ok duration =>
    rw [hd] at h
    try dsimp only at h
    split at h
    · exact use_timing_name _ c h
    · injection h with h2
      rw [← h2]

/-- A successful case-construction loop keeps the case names (the
accumulator names followed by the remaining elements' name attributes) free
of duplicates. -/
theorem addCases_ok_nodup :
    ∀ (chs : List XElem) (acc : List TestCase) (n : Nat)
      (r : List TestCase × Nat),
      TestSuite.addCases chs acc n = .ok r →
      (acc.map TestCase.name).Nodup →
      ((acc.map TestCase.name) ++
        chs.map (fun c => XElem.get c "name")).Nodup := by
  intro chs
  induction chs with
  | nil =>
    intro acc n r h hnd
    simpa using hnd
  | cons ch rest ih =>
    intro acc n r h hnd
    unfold TestSuite.addCases at h
    cases hb : TestCase.build ch with
    | error e => rw [hb] at h; exact absurd h (by simp)
    | ok c0 =>
      rw [hb] at h
      try dsimp only at h
      by_cases hm :
          memOpt (acc.map TestCase.name)
            ({ c0 with uuid := uuidName n } : TestCase).name = true
      · rw [if_pos hm] at h
        exact absurd h (by simp)
      · rw [if_neg hm] at h
        have hname : c0.name = ch.get "name" := build_name ch c0 hb
        have hnotin : ({ c0 with uuid := uuidName n } : TestCase).name ∉
            acc.map TestCase.name := fun hmem =>
          hm ((memOpt_iff _ _).mpr hmem)
        have hnd2 : ((acc ++ [{ c0 with uuid := uuidName n }]).map
            TestCase.name).Nodup := by
          rw [List.map_append]
          simp only [List.map_cons, List.map_nil]
          rw [List.nodup_append]
          refine ⟨hnd, List.nodup_singleton _, ?_⟩
          intro a ha hb2
          simp at hb2
          rw [hb2] at ha
          exact hnotin ha
        have := ih (acc ++ [{ c0 with uuid := uuidName n }]) (n + 1) r h hnd2
        rw [List.map_append] at this
        simp only [List.map_cons, List.map_nil] at this
        rw [List.append_assoc] at this
        simp only [List.singleton_append] at this
        rw [hname] at this
        exact this

/-- When every case element builds and the name attributes contain a
duplicate, the case-construction loop raises `KeyError`. -/
theorem addCases_dup_keyError :
    ∀ (chs : List XElem) (acc : List TestCase) (n : Nat),
      (∀ ch ∈ chs, (TestCase.build ch).isOk = true) →
      (acc.map TestCase.name).Nodup →
      ¬ ((acc.map TestCase.name) ++
          chs.map (fun c => XElem.get c "name")).Nodup →
      ∃ m, TestSuite.addCases chs acc n = .error (.keyError m) := by
  intro chs
  induction chs with
  | nil =>
    intro acc n hall hnd hdup
    exact absurd (by simpa using hnd) hdup
  | cons ch rest ih =>
    intro acc n hall hnd hdup
    have hbo := hall ch (List.mem_cons_self ch rest)
    cases hb : TestCase.build ch with
    | error e => rw [hb] at hbo; exact Bool.noConfusion hbo
    | ok c0 =>
      unfold TestSuite.addCases
      rw [hb]
      try dsimp only
      by_cases hm :
          memOpt (acc.map TestCase.name)
            ({ c0 with uuid := uuidName n } : TestCase).name = true
      · exact ⟨_, by rw [if_pos hm]⟩
      · rw [if_neg hm]
        have hname : c0.name = ch.get "name" := build_name ch c0 hb
        have hnotin : ({ c0 with uuid := uuidName n } : TestCase).name ∉
            acc.map TestCase.name := fun hmem =>
          hm ((memOpt_iff _ _).mpr hmem)
        have hnd2 : ((acc ++ [{ c0 with uuid := uuidName n }]).map
            TestCase.name).Nodup := by
          rw [List.map_append]
          simp only [List.map_cons, List.map_nil]
          rw [List.nodup_append]
          refine ⟨hnd, List.nodup_singleton _, ?_⟩
          intro a ha hb2
          simp at hb2
          rw [hb2] at ha
          exact hnotin ha
        refine ih (acc ++ [{ c0 with uuid := uuidName n }]) (n + 1)
          (fun x hx => hall x (List.mem_cons_of_mem ch hx)) hnd2 ?_
        intro hnd3
        apply hdup
        rw [List.map_append] at hnd3
        simp only [List.map_cons, List.map_nil] at hnd3
        rw [List.append_assoc] at hnd3
        simp only [List.singleton_append] at hnd3
        rw [hname] at hnd3
        exact hnd3

/-- Suite construction sets the suite name from the element's `name`
attribute. -/
theorem suite_ofElem_name (e : XElem) (n : Nat) (s : TestSuite) (n1 : Nat)
    (h : TestSuite.ofElem e n = .ok (s, n1)) : s.name = e.get "name" := by
  unfold TestSuite.ofElem at h
  cases hm : TestSuite._metadata_from_elem e with
  | error x => rw [hm] at h; exact absurd h (by simp)
  | ok m =>
    rw [hm] at h
    try dsimp only at h
    cases ha : TestSuite.addCases (e.findall "testcase") [] n with
    | error x => rw [ha] at h; exact absurd h (by simp)
    | ok p =>
      rw [ha] at h
      try dsimp only at h
      injection h with h1
      injection h1 with ha hb
      rw [← ha]

/-- A successful suite-inclusion loop implies no element clashes with the
initial collection's suite names. -/
theorem addSuites_ok_no_clash :
    ∀ (els : List XElem) (cur : List TestSuite) (n : Nat)
      (r : List TestSuite × Nat) (initNames : List (Option String)),
      (∀ x, x ∈ initNames → x ∈ cur.map TestSuite.name) →
      TestSuites.addSuites els cur n = .ok r →
      ∀ el ∈ els, el.get "name" ∉ initNames := by
  intro els
  induction els with
  | nil =>
    intro cur n r initNames hmono h el hel
    exact absurd hel (List.not_mem_nil el)
  | cons el0 rest ih =>
    intro cur n r initNames hmono h el hel
    unfold TestSuites.addSuites at h
    cases hs : TestSuite.ofElem el0 n with
    | error x => rw [hs] at h; exact absurd h (by simp)
    | ok p =>
      rw [hs] at h
      try dsimp only at h
      by_cases hm : memOpt (cur.map TestSuite.name) p.1.name = true
      · rw [if_pos hm] at h
        exact absurd h (by simp)
      · rw [if_neg hm] at h
        rcases List.mem_cons.mp hel with hel0 | hrest
        · intro hin
          apply hm
          apply (memOpt_iff _ _).mpr
          apply hmono
          have hn : p.1.name = el0.get "name" :=
            suite_ofElem_name el0 n p.1 p.2 hs
          rw [hn, ← hel0]
          exact hin
        · exact ih (cur ++ [p.1]) p.2 r initNames
            (fun x hx => by
              rw [List.map_append]
              exact List.mem_append_left _ (hmono x hx)) h el hrest

/-- C6.  Suite construction always fails when two case elements share a
name attribute; when the element is otherwise well formed the failure is
specifically a duplicate `KeyError`; and including a document that defines
a suite whose name is already present in the collection always fails. -/
theorem c6_duplicate_errors :
    (∀ (e : XElem) (n : Nat),
      hasDupL ((e.findall "testcase").map (fun c => XElem.get c "name")) = true →
      (TestSuite.ofElem e n).isOk = false)
    ∧ (∀ (e : XElem) (n : Nat),
      (TestSuite._metadata_from_elem e).isOk = true →
      (∀ ch ∈ e.findall "testcase", (TestCase.build ch).isOk = true) →
      hasDupL ((e.findall "testcase").map (fun c => XElem.get c "name")) = true →
      ∃ m, TestSuite.ofElem e n = .error (.keyError m))
    ∧ (∀ (suites : List TestSuite) (root : XElem) (n : Nat),
      (∃ el ∈ root.findall "testsuite",
        el.get "name" ∈ suites.map TestSuite.name) →
      (TestSuites.include_doc suites root n).isOk = false) := by
  refine ⟨?_, ?_, ?_⟩
  · intro e n hdup
    cases hres : TestSuite.ofElem e n with
    | error x => rfl
    | ok r =>
      exfalso
      unfold TestSuite.ofElem at hres
      cases hm : TestSuite._metadata_from_elem e with
      | error x => rw [hm] at hres; exact absurd hres (by simp)
      | ok m =>
        rw [hm] at hres
        try dsimp only at hres
        cases ha : TestSuite.addCases (e.findall "testcase") [] n with
        | error x => rw [ha] at hres; exact absurd hres (by simp)
        | ok p =>
          have hnd := addCases_ok_nodup (e.findall "testcase") [] n p ha
            (by simp)
          simp only [List.map_nil, List.nil_append] at hnd
          exact (hasDupL_iff _).mp hdup hnd
  · intro e n hmeta hall hdup
    cases hm : TestSuite._metadata_from_elem e with
    | error x => rw [hm] at hmeta; exact Bool.noConfusion hmeta
    | ok m =>
      obtain ⟨msg, hadd⟩ := addCases_dup_keyError (e.findall "testcase") [] n
        hall (by simp)
        (by
          simp only [List.map_nil, List.nil_append]
          exact (hasDupL_iff _).mp hdup)
      refine ⟨msg, ?_⟩
      unfold TestSuite.ofElem
      rw [hm]
      try dsimp only
      rw [hadd]
  · intro suites root n hclash
    cases hres : TestSuites.include_doc suites root n with
    | error x => rfl
    | ok r =>
      exfalso
      obtain ⟨el, hel, hin⟩ := hclash
      exact addSuites_ok_no_clash (root.findall "testsuite") suites n r
        (suites.map TestSuite.name) (fun x hx => hx) hres el hel hin

/-- Element for the C6 witness: two `<testcase>` children named `a`. -/
def tsElemDupW : XElem :=
  .mk "testsuite" [("name", "s"), ("tests", "2"), ("errors", "0"),
    ("failures", "0"), ("skipped", "0")]
    [.mk "testcase" [("name", "a")] [] none,
     .mk "testcase" [("name", "a")] [] none] none

/-- Document root for the C6 witness: defines a suite named `s`. -/
def rootW : XElem :=
  .mk "testsuites" []
    [.mk "testsuite" [("name", "s"), ("tests", "0"), ("errors", "0"),
      ("failures", "0"), ("skipped", "0")] [] none] none

/-- Metadata of the already-present suite in the C6 witness. -/
def metaZeroW : SuiteMeta := ⟨0, 0, 0, 0, 0, none, none, none⟩

/-- Witness for C6 at concrete inputs: a suite with two cases named `a`
fails (with a duplicate `KeyError`), and including a document defining the
already-present suite `s` fails. -/
theorem c6_duplicate_errors_witness :
    (TestSuite.ofElem tsElemDupW 0).isOk = false
    ∧ (∃ m, TestSuite.ofElem tsElemDupW 0 = .error (.keyError m))
    ∧ (TestSuites.include_doc [⟨some "s", metaZeroW, []⟩] rootW 0).isOk = false :=
  ⟨c6_duplicate_errors.1 tsElemDupW 0 (by decide),
   c6_duplicate_errors.2.1 tsElemDupW 0 (by decide) (by decide) (by decide),
   c6_duplicate_errors.2.2 [⟨some "s", metaZeroW, []⟩] rootW 0
     ⟨.mk "testsuite" [("name", "s"), ("tests", "0"), ("errors", "0"),
        ("failures", "0"), ("skipped", "0")] [] none,
      by exact List.mem_singleton.mpr rfl, by decide⟩⟩

/-- Does the detail extracted from the case's stdout contain no images
(including the cases where there is no detail)? -/
def TestCase.detailNoImages (c : TestCase) : Bool :=
  match TestDetail.from_output c.stdout with
  | .ok (some d) => d.images.isEmpty
  | _ => true

/-- Does no case of the collection carry detail images? -/
def TestSuites.noImages (suites : List TestSuite) : Bool :=
  suites.all (fun ts => ts.cases.all TestCase.detailNoImages)

/-- Rendering the results of a case whose detail has no images draws
nothing from the uuid supply. -/
theorem result_lines_state (cfg : Config) (lvl : String) (c : TestCase)
    (n : Nat) (r : List String × Nat) (hni : c.detailNoImages = true)
    (h : TestCase.result_lines cfg lvl c n = .ok r) : r.2 = n := by
  unfold TestCase.detailNoImages at hni
  unfold TestCase.result_lines at h
  cases hf : TestDetail.from_output c.stdout with
  | error e => rw [hf] at h; exact absurd h (by simp)
  | ok od =>
    rw [hf] at hni h
    cases od with
    | none =>
      try dsimp only at h
      injection h with h1
      rw [← h1]
    | some d =>
      have himg : d.images = [] := by simpa using hni
      try dsimp only at h
      unfold TestDetail.to_asciidoc at h
      rw [himg] at h
      have hredux : TestDetail.imagesLines [] n = .ok ([], n) := rfl
      rw [hredux] at h
      try dsimp only at h
      injection h with h1
      rw [← h1]

/-- Rendering the results of a list of cases without detail images draws
nothing from the uuid supply. -/
theorem resultsGo_state (cfg : Config) (lvl : String) :
    ∀ (cs : List TestCase) (n : Nat) (r : List String × Nat),
      cs.all TestCase.detailNoImages = true →
      TestSuite.resultsGo cfg lvl cs n = .ok r → r.2 = n := by
  intro cs
  induction cs with
  | nil =>
    intro n r hall h
    injection h with h1
    rw [← h1]
  | cons c rest ih =>
    intro n r hall h
    simp only [List.all_cons, Bool.and_eq_true] at hall
    unfold TestSuite.resultsGo at h
    cases h1 : TestCase.result_lines cfg lvl c n with
    | error e => rw [h1] at h; exact absurd h (by simp)
    | ok p =>
      obtain ⟨ls, n1⟩ := p
      rw [h1] at h
      try dsimp only at h
      cases h2 : TestSuite.resultsGo cfg lvl rest n1 with
      | error e => rw [h2] at h; exact absurd h (by simp)
      | ok q =>
        obtain ⟨ls2, n2⟩ := q
        rw [h2] at h
        try dsimp only at h
        have e1 : n1 = n := result_lines_state cfg lvl c n (ls, n1) hall.1 h1
        have e2 : n2 = n1 := ih n1 (ls2, n2) hall.2 h2
        injection h with h3
        rw [← h3]
        simp [e1, e2]

/-- Rendering the results pass over a collection without detail images
draws nothing from the uuid supply. -/
theorem results_pass_state (cfg : Config) (lvl : String) :
    ∀ (suites : List TestSuite) (n : Nat) (r : List String × Nat),
      TestSuites.noImages suites = true →
      TestSuites.resultsGo cfg lvl suites n = .ok r → r.2 = n := by
  intro suites
  induction suites with
  | nil =>
    intro n r hall h
    injection h with h1
    rw [← h1]
  | cons ts rest ih =>
    intro n r hall h
    unfold TestSuites.noImages at hall
    simp only [List.all_cons, Bool.and_eq_true] at hall
    unfold TestSuites.resultsGo at h
    cases h1 : TestSuite.results cfg (lvl ++ "=") ts n with
    | error e => rw [h1] at h; exact absurd h (by simp)
    | ok p =>
      obtain ⟨ls, n1⟩ := p
      rw [h1] at h
      try dsimp only at h
      cases h2 : TestSuites.resultsGo cfg lvl rest n1 with
      | error e => rw [h2] at h; exact absurd h (by simp)
      | ok q =>
        obtain ⟨ls2, n2⟩ := q
        rw [h2] at h
        try dsimp only at h
        have e1 : n1 = n :=
          resultsGo_state cfg (lvl ++ "=") ts.cases n (ls, n1) hall.1 h1
        have e2 : n2 = n1 := ih n1 (ls2, n2) hall.2 h2
        injection h with h3
        rw [← h3]
        simp [e1, e2]

/-- C4 amended.  The summary and specifications passes are byte-identical
across repeated invocations for every collection, and the results pass is
byte-identical whenever no case's extracted detail contains images (with
images present the emitted image filenames draw fresh identifiers, so the
two invocations differ, per `c4_counterexample`). -/
theorem c4_amended_idempotent :
    (∀ (suites : List TestSuite) (lvl : String) (n : Nat),
      (TestSuites.summaryPass suites lvl n).1 =
        (TestSuites.summaryPass suites lvl
          (TestSuites.summaryPass suites lvl n).2).1)
    ∧ (∀ (suites : List TestSuite) (cfg : Config) (lvl : String) (n : Nat),
      (TestSuites.specsPass suites cfg lvl n).1 =
        (TestSuites.specsPass suites cfg lvl
          (TestSuites.specsPass suites cfg lvl n).2).1)
    ∧ (∀ (suites : List TestSuite) (cfg : Config) (lvl : String) (n : Nat)
        (out : List String) (n1 : Nat),
      TestSuites.noImages suites = true →
      TestSuites.resultsPass suites cfg lvl n = .ok (out, n1) →
      TestSuites.resultsPass suites cfg lvl n1 = .ok (out, n1)) := by
  refine ⟨fun _ _ _ => rfl, fun _ _ _ _ => rfl, ?_⟩
  intro suites cfg lvl n out n1 hni h
  have hstate : n1 = n :=
    results_pass_state cfg lvl suites n (out, n1) hni h
  rw [hstate] at h ⊢
  exact h

/-- Metadata of the C4 witness suites. -/
def metaC4 : SuiteMeta := ⟨1, 0, 0, 1, 0, none, none, none⟩

/-- Configuration of the C4 instances: nothing resolvable. -/
def cfgC4 : Config := ⟨[], [], []⟩

/-- Case of the C4 witness: no stdout, hence no detail and no images. -/
def caseC4W : TestCase :=
  ⟨"u2", some "c", some "s", none, none, .success, none, none, []⟩

/-- Collection of the C4 witness. -/
def suitesC4W : List TestSuite := [⟨some "s", metaC4, [caseC4W]⟩]

/-- Output of the first results-pass run of the C4 witness. -/
def c4wOut : List String :=
  match TestSuites.resultsPass suitesC4W cfgC4 "===" 0 with
  | .ok (o, _) => o
  | .error _ => []

/-- Witness for C4 amended at a concrete collection without images. -/
theorem c4_amended_idempotent_witness :
    (TestSuites.summaryPass suitesC4W "===" 0).1 =
      (TestSuites.summaryPass suitesC4W "==="
        (TestSuites.summaryPass suitesC4W "===" 0).2).1
    ∧ TestSuites.noImages suitesC4W = true
    ∧ TestSuites.resultsPass suitesC4W cfgC4 "===" 0 = .ok (c4wOut, 0)
    ∧ TestSuites.resultsPass suitesC4W cfgC4 "===" 0 = .ok (c4wOut, 0) :=
  ⟨c4_amended_idempotent.1 suitesC4W "===" 0, rfl, rfl,
   c4_amended_idempotent.2.2 suitesC4W cfgC4 "===" 0 c4wOut 0 rfl rfl⟩

/-- Case of the C4 counterexample: stdout carries detail with one plot
image. -/
def caseC4X : TestCase :=
  ⟨"u3", some "c", some "s", none, none, .success, none,
    some (.jsonOf (.obj [("result", .bool true), ("reason", .null),
      ("plot", .arr [.str "p.png"])])), []⟩

/-- Collection of the C4 counterexample. -/
def suitesC4X : List TestSuite := [⟨some "s", metaC4, [caseC4X]⟩]

/-- The lines of a results-pass outcome. -/
def c4out (r : Except PyExn (List String × Nat)) : List String :=
  match r with
  | .ok (o, _) => o
  | .error _ => []

/-- The final uuid-supply position of a results-pass outcome. -/
def c4snd (r : Except PyExn (List String × Nat)) : Nat :=
  match r with
  | .ok (_, k) => k
  | .error _ => 0

/-- Counterexample to C4: on a collection whose one case carries a plot
image, running the results pass twice (the second run starting from the
uuid supply the first one left) produces different output text — the image
filename embeds a fresh identifier on each invocation. -/
theorem c4_counterexample :
    (TestSuites.resultsPass suitesC4X cfgC4 "===" 0).isOk = true
    ∧ (TestSuites.resultsPass suitesC4X cfgC4 "==="
        (c4snd (TestSuites.resultsPass suitesC4X cfgC4 "===" 0))).isOk = true
    ∧ passText (c4out (TestSuites.resultsPass suitesC4X cfgC4 "===" 0)) ≠
      passText (c4out (TestSuites.resultsPass suitesC4X cfgC4 "==="
        (c4snd (TestSuites.resultsPass suitesC4X cfgC4 "===" 0)))) := by
  refine ⟨rfl, rfl, ?_⟩
  decide
